import Mathlib

/-
Verification of the time-series collection and alignment pipeline in
`collect_data.py` (Crypto_Dashboard).

The embedding models:
  * JSON-shaped upstream responses (`Json`), with network/parse failures as
    `Except.error` (Python exceptions);
  * the pandas operations the script uses: `pd.DataFrame` construction,
    column access, `astype(float)` / `pd.to_numeric`, `pd.to_datetime`,
    `pd.concat(axis=1)`, `sort_index`, boolean-mask filtering, `ffill`,
    and `to_csv`;
  * the four source adapters, the `update_data` pipeline and the
    `generate_html` vacuity checks.

Timestamps are modelled as rational numbers of seconds since the Unix epoch
(tz-naive wall-clock time); a pandas Series/Index additionally carries a
single boolean flag recording whether it is timezone-aware.  Missing values
(`NaN`) are modelled as `Json.null`.  `NaT` index entries are not modelled:
a null in a column that is converted with `astype(float)` and then fed to
`pd.to_datetime` is treated as a conversion failure.
-/

namespace CryptoDashboard

/-- JSON-shaped values as returned by `.json()` on an HTTP response.
Numeric values are rationals; `null` doubles as the missing value `NaN`. -/
inductive Json where
  | null
  | num (q : ℚ)
  | str (s : String)
  | arr (xs : List Json)
  | obj (fields : List (String × Json))

/-- Embedding of `pd.isna` on a cell: only the missing value is "na". -/
def Json.isNull : Json → Bool
  | .null => true
  | _ => false

/-- A fetched HTTP response: `Except.error` models a raised exception
(network error, timeout, JSON decode failure). -/
abbrev Response := Except String Json

/-- A named pandas Series with a datetime index: the index is a list of
tz-naive wall-clock timestamps (seconds since epoch) paired with cell
values; `tz` records whether the index is timezone-aware. -/
structure NamedSeries where
  name : String
  tz : Bool
  entries : List (ℚ × Json)

/-- Embedding of `pd.Series(dtype=float, name=n)`: the empty fallback series. -/
def emptySeries (n : String) : NamedSeries := ⟨n, false, []⟩

/-- The keys (index) of a series. -/
def seriesKeys (s : NamedSeries) : List ℚ := s.entries.map Prod.fst

/- ### Numeric and datetime string parsing -/

/-- Is `c` a decimal digit. -/
def isDigitChar (c : Char) : Bool := '0' ≤ c && c ≤ '9'

/-- Value of a digit character. -/
def digitVal (c : Char) : ℕ := c.toNat - '0'.toNat

/-- The natural number denoted by a digit string. -/
def natOfDigits (ds : List Char) : ℕ := ds.foldl (fun a c => 10 * a + digitVal c) 0

/-- Parse an unsigned decimal literal (digits, optionally a point and more
digits).  Returns `none` on anything else, e.g. on currency symbols or
thousands separators, mirroring Python `float()` / `pd.to_numeric`. -/
def parseDecimalCore (ds : List Char) : Option ℚ :=
  let intPart := ds.takeWhile isDigitChar
  let rest := ds.dropWhile isDigitChar
  match rest with
  | [] =>
      if intPart.isEmpty then none else some (natOfDigits intPart)
  | '.' :: fracPart =>
      if fracPart.all isDigitChar && !(intPart.isEmpty && fracPart.isEmpty) then
        some ((natOfDigits intPart : ℚ) + (natOfDigits fracPart : ℚ) / (10 ^ fracPart.length))
      else none
  | _ => none

/-- Parse a signed decimal literal. -/
def parseDecimal (s : String) : Option ℚ :=
  match s.data with
  | '-' :: ds => (parseDecimalCore ds).map (fun q => -q)
  | '+' :: ds => parseDecimalCore ds
  | ds => parseDecimalCore ds

/-- Split a character list on a separator character. -/
def splitOnChar (c : Char) : List Char → List (List Char)
  | [] => [[]]
  | x :: xs =>
      let r := splitOnChar c xs
      if x == c then [] :: r else (x :: r.headD []) :: r.tail

/-- Days from the Unix epoch to the Gregorian date `y-m-d` (valid for
`y ≥ 1`); the standard civil-from-days era computation. -/
def daysSinceEpoch (y m d : ℕ) : Int :=
  let y2 := if m ≤ 2 then y - 1 else y
  let era := y2 / 400
  let yoe := y2 % 400
  let mp := (m + 9) % 12
  let doy := (153 * mp + 2) / 5 + (d - 1)
  let doe := yoe * 365 + yoe / 4 - yoe / 100 + doy
  (era * 146097 + doe : Int) - 719468

/-- Parse an all-digits field. -/
def parseNatField (ds : List Char) : Option ℕ :=
  if !ds.isEmpty && ds.all isDigitChar then some (natOfDigits ds) else none

/-- Parse a `YYYY-MM-DD` date part. -/
def parseDatePart (ds : List Char) : Option (ℕ × ℕ × ℕ) :=
  match splitOnChar '-' ds with
  | [ys, ms, dds] => do
      let y ← parseNatField ys
      let m ← parseNatField ms
      let d ← parseNatField dds
      pure (y, m, d)
  | _ => none

/-- Parse an `HH:MM:SS(.frac)?` time-of-day part (already stripped of any
timezone suffix); returns seconds. -/
def parseTimePart (ds : List Char) : Option ℚ :=
  match splitOnChar ':' ds with
  | [hs, ms, ss] => do
      let h ← parseNatField hs
      let m ← parseNatField ms
      let s ← parseDecimalCore ss
      pure ((3600 * h + 60 * m : ℕ) + s)
  | _ => none

/-- Parse an ISO-8601-style datetime string as `pd.to_datetime` does on the
shapes this pipeline meets: `YYYY-MM-DD`, optionally followed by
`THH:MM:SS(.frac)?` and a trailing `Z` marking a UTC-aware value.  Returns
naive wall-clock seconds since epoch and the tz-awareness flag. -/
def parseIso (s : String) : Option (ℚ × Bool) :=
  match splitOnChar 'T' s.data with
  | [dp] => do
      let (y, m, d) ← parseDatePart dp
      pure ((86400 : ℚ) * daysSinceEpoch y m d, false)
  | [dp, tp] => do
      let (y, m, d) ← parseDatePart dp
      let (tp2, tzAware) :=
        if tp.getLastD ' ' == 'Z' then (tp.dropLast, true) else (tp, false)
      let t ← parseTimePart tp2
      pure ((86400 : ℚ) * daysSinceEpoch y m d + t, tzAware)
  | _ => none

/- ### pandas primitives -/

/-- Embedding of `pd.to_datetime` on one cell (no `unit=` argument): strings are parsed
as ISO datetimes, numbers as nanoseconds since epoch. -/
def pdToDatetimeCell (j : Json) : Except String (ℚ × Bool) :=
  match j with
  | .str s =>
      match parseIso s with
      | some r => .ok r
      | none => .error "to_datetime: unable to parse datetime string"
  | .num q => .ok (q / 1000000000, false)
  | _ => .error "to_datetime: unsupported cell"

/-- Embedding of `pd.to_datetime` on a column: all cells must agree on tz-awareness
(pandas raises on mixed aware/naive values). -/
def pdToDatetimeList (cells : List Json) : Except String (List ℚ × Bool) := do
  let parsed ← cells.mapM pdToDatetimeCell
  if parsed.all (fun p => p.2 == false) then
    .ok (parsed.map Prod.fst, false)
  else if parsed.all (fun p => p.2 == true) then
    .ok (parsed.map Prod.fst, true)
  else
    .error "to_datetime: mixed timezone-aware and naive values"

/-- Numeric coercion of one cell, as in `astype(float)` / `pd.to_numeric`
(default `errors=raise`): numbers pass through, numeric strings are parsed,
missing values stay missing, anything else raises. -/
def toNumericCell (j : Json) : Except String Json :=
  match j with
  | .num q => .ok (.num q)
  | .str s =>
      match parseDecimal s with
      | some q => .ok (.num q)
      | none => .error "could not convert string to float"
  | .null => .ok .null
  | _ => .error "to_numeric: unsupported cell"

/-- Numeric coercion of a whole column; one bad cell fails the column. -/
def toNumericList (cells : List Json) : Except String (List Json) :=
  cells.mapM toNumericCell

/-- Strict float conversion of one cell, used for the epoch columns that
are fed into `pd.to_datetime(..., unit=...)`: a missing value would become
`NaT`, which this model does not represent, so it is treated as a failure. -/
def floatCell (j : Json) : Except String ℚ :=
  match j with
  | .num q => .ok q
  | .str s =>
      match parseDecimal s with
      | some q => .ok q
      | none => .error "could not convert string to float"
  | _ => .error "float: unsupported cell"

/-- A pandas DataFrame: column labels plus rows of cells (each row aligned
positionally with `columns`). -/
structure DataFrame where
  columns : List String
  rows : List (List Json)

/-- Union of the keys of a list of JSON records, in order of first
appearance (the column set `pd.DataFrame` derives from a list of dicts). -/
def recordKeys (xs : List Json) : List String :=
  xs.foldl
    (fun acc j =>
      match j with
      | .obj fs => fs.foldl (fun a p => if p.1 ∈ a then a else a ++ [p.1]) acc
      | _ => acc)
    []

/-- Field lookup in a JSON record; a missing field is a missing cell. -/
def lookupField (fs : List (String × Json)) (k : String) : Json :=
  match fs.find? (fun p => p.1 == k) with
  | some p => p.2
  | none => .null

/-- Elements of a JSON array (empty for non-arrays). -/
def jsonArrElems : Json → List Json
  | .arr xs => xs
  | _ => []

/-- Embedding of `pd.DataFrame(response)`:
  * a list of records becomes a table with the union of the record keys as
    columns;
  * a list of scalars becomes a single positional column (labelled `0`);
  * a mapping whose values are equal-length arrays becomes a column table;
  * a mapping with scalar values raises (`If using all scalar values...`),
    as does anything else. -/
def pdDataFrame (j : Json) : Except String DataFrame :=
  match j with
  | .arr xs =>
      if xs.all (fun x => x matches .obj _) then
        let cols := recordKeys xs
        .ok ⟨cols, xs.map (fun x =>
          match x with
          | .obj fs => cols.map (lookupField fs)
          | _ => [])⟩
      else if xs.all (fun x => !(x matches .obj _)) then
        .ok ⟨["0"], xs.map (fun x => [x])⟩
      else .error "DataFrame: mixed records and scalars"
  | .obj fs =>
      if fs.all (fun p => p.2 matches .arr _) then
        let colLists := fs.map (fun p => (p.1, jsonArrElems p.2))
        let n := (colLists.headD ("", [])).2.length
        if colLists.all (fun p => p.2.length == n) then
          .ok ⟨colLists.map Prod.fst,
               (List.range n).map (fun i => colLists.map (fun p => p.2.getD i .null))⟩
        else .error "DataFrame: all arrays must be of the same length"
      else .error "DataFrame: if using all scalar values you must pass an index"
  | _ => .error "DataFrame: unsupported response shape"

/-- Embedding of `df.empty` for a DataFrame: some axis has length zero. -/
def dfEmpty (df : DataFrame) : Bool := df.rows.isEmpty || df.columns.isEmpty

/-- Embedding of `df[c]`: column access; a missing label raises `KeyError`. -/
def dfCol (df : DataFrame) (c : String) : Except String (List Json) :=
  match df.columns.findIdx? (fun n => n == c) with
  | some i => .ok (df.rows.map (fun r => r.getD i .null))
  | none => .error "KeyError"

/-- Substring test on character lists (Python `in` on strings). -/
def charsHaveSub (pat : List Char) : List Char → Bool
  | [] => pat.isEmpty
  | c :: cs => pat.isPrefixOf (c :: cs) || charsHaveSub pat cs

/-- Python `k in response`: key membership for a dict, element membership
for a list, substring test for a string, `TypeError` otherwise. -/
def jsonContains (j : Json) (k : String) : Except String Bool :=
  match j with
  | .obj fs => .ok (fs.any (fun p => p.1 == k))
  | .arr xs => .ok (xs.any (fun x =>
      match x with
      | .str s => s == k
      | _ => false))
  | .str s => .ok (charsHaveSub k.data s.data)
  | _ => .error "TypeError: argument is not iterable"

/-- Python `response[k]` with a string key: field access on a dict
(`KeyError` when absent), `TypeError` on lists/strings/scalars. -/
def jsonIndex (j : Json) (k : String) : Except String Json :=
  match j with
  | .obj fs =>
      match fs.find? (fun p => p.1 == k) with
      | some p => .ok p.2
      | none => .error "KeyError"
  | _ => .error "TypeError: indices must be integers"

/- ### Source adapters

Each `fetch_*` mirrors one adapter in `collect_data.py`.  The `try`-block
body is a function into `Except String (Bool × List (ℚ × Json))` returning
the tz flag and the (index, value) entries of the series; every exit of the
Python function attaches the adapter's fixed name (the success path via
`.rename(...)`, the failure paths by constructing the named empty series),
so the name is attached uniformly outside the body. -/

/-- Body of `fetch_stablecoin_mcap` (DeFiLlama): build a DataFrame from the
response, parse `date` as float epoch seconds (`pd.to_datetime(..., unit='s')`
yields a tz-naive index), strip the timezone if one is present, index by
`date` and take the raw `totalCirculating` column. -/
def fetch_stablecoin_body (r : Response) : Except String (Bool × List (ℚ × Json)) := do
  let response ← r
  let df ← pdDataFrame response
  let dateRaw ← dfCol df "date"
  let dates ← dateRaw.mapM floatCell
  let tz0 := false
  let tz1 := if tz0 then false else tz0
  let vals ← dfCol df "totalCirculating"
  .ok (tz1, dates.zip vals)

/-- Embedding of `fetch_stablecoin_mcap`: the `except` branch returns the named empty
series. -/
def fetch_stablecoin_mcap (r : Response) : NamedSeries :=
  match fetch_stablecoin_body r with
  | .ok p => ⟨"Stablecoin_Market_Cap", p.1, p.2⟩
  | .error _ => emptySeries "Stablecoin_Market_Cap"

/-- The result of `yf.Ticker("IBIT").history(period="1y")`: a tz flag for
the index and rows of (date, Volume, Close). -/
structure Hist where
  tz : Bool
  rows : List (ℚ × Json × Json)

/-- Cell multiplication `hist['Volume'] * hist['Close']`: numbers multiply,
a missing operand yields a missing product, anything else raises. -/
def mulCells (a b : Json) : Except String Json :=
  match a, b with
  | .num x, .num y => .ok (.num (x * y))
  | .null, _ => .ok .null
  | _, .null => .ok .null
  | _, _ => .error "TypeError: unsupported operand types"

/-- Body of `fetch_etf_volume` (Yahoo Finance / IBIT): empty history is an
explicit empty return; otherwise the index is unconditionally localized to
naive and the proxy is Volume times Close. -/
def fetch_etf_body (r : Except String Hist) : Except String (Bool × List (ℚ × Json)) := do
  let hist ← r
  if hist.rows.isEmpty then
    .ok (false, [])
  else do
    let prods ← hist.rows.mapM (fun p => do
      let v ← mulCells p.2.1 p.2.2
      pure (p.1, v))
    .ok (false, prods)

/-- Embedding of `fetch_etf_volume`. -/
def fetch_etf_volume (r : Except String Hist) : NamedSeries :=
  match fetch_etf_body r with
  | .ok p => ⟨"ETF_Volume_Proxy", p.1, p.2⟩
  | .error _ => emptySeries "ETF_Volume_Proxy"

/-- Body of `fetch_realized_cap` (CoinMetrics): a response without a `data`
key is an explicit empty return; `time` is parsed with `pd.to_datetime`
and the timezone is stripped when present; `CapRealizedUSD` is coerced with
`pd.to_numeric` (default `errors=raise`). -/
def fetch_realized_body (r : Response) : Except String (Bool × List (ℚ × Json)) := do
  let response ← r
  let hasData ← jsonContains response "data"
  if !hasData then
    .ok (false, [])
  else do
    let d ← jsonIndex response "data"
    let df ← pdDataFrame d
    let timeRaw ← dfCol df "time"
    let tp ← pdToDatetimeList timeRaw
    let tz1 := if tp.2 then false else tp.2
    let valsRaw ← dfCol df "CapRealizedUSD"
    let vals ← toNumericList valsRaw
    .ok (tz1, tp.1.zip vals)

/-- Embedding of `fetch_realized_cap`. -/
def fetch_realized_cap (r : Response) : NamedSeries :=
  match fetch_realized_body r with
  | .ok p => ⟨"BTC_Realized_Cap", p.1, p.2⟩
  | .error _ => emptySeries "BTC_Realized_Cap"

/-- Body of `fetch_open_interest` (Binance): a dict response signals an IP
block and a non-list response a format error, both explicit empty returns,
as is an empty DataFrame; `timestamp` is float epoch milliseconds
(`pd.to_datetime(..., unit='ms')` yields a tz-naive index) and
`sumOpenInterestValue` is coerced with `astype(float)`. -/
def fetch_oi_body (r : Response) : Except String (Bool × List (ℚ × Json)) := do
  let response ← r
  if response matches .obj _ then
    .ok (false, [])
  else if !(response matches .arr _) then
    .ok (false, [])
  else do
    let df ← pdDataFrame response
    if df.rows.isEmpty then
      .ok (false, [])
    else do
      let tsRaw ← dfCol df "timestamp"
      let tsF ← tsRaw.mapM floatCell
      let times := tsF.map (fun q => q / 1000)
      let tz0 := false
      let tz1 := if tz0 then false else tz0
      let valsRaw ← dfCol df "sumOpenInterestValue"
      let vals ← toNumericList valsRaw
      .ok (tz1, times.zip vals)

/-- Embedding of `fetch_open_interest`. -/
def fetch_open_interest (r : Response) : NamedSeries :=
  match fetch_oi_body r with
  | .ok p => ⟨"Binance_BTC_OI", p.1, p.2⟩
  | .error _ => emptySeries "Binance_BTC_OI"

/- ### Aligner / repairer (`update_data`) -/

/-- The aligned table: column labels plus rows of (timestamp, cells), the
cells aligned positionally with `names`.  By the time it is built all
indices are tz-naive, so row keys are plain timestamps. -/
structure Table where
  names : List String
  rows : List (ℚ × List Json)

/-- Embedding of `pd.DataFrame()`: the empty fallback table after a failed concat. -/
def Table.emptyTable : Table := ⟨[], []⟩

/-- Embedding of `df.empty`: some axis has length zero. -/
def tableEmpty (t : Table) : Bool := t.rows.isEmpty || t.names.isEmpty

/-- The pre-merge safety net: `if not s.empty and s.index.tz is not None:
s.index = s.index.tz_localize(None)` (wall-clock times are preserved). -/
def stripTz (s : NamedSeries) : NamedSeries :=
  if !s.entries.isEmpty && s.tz then { s with tz := false } else s

/-- Value of a series at key `k`, missing when the key is absent. -/
def lookupVal (s : NamedSeries) (k : ℚ) : Json :=
  match s.entries.find? (fun p => decide (p.1 = k)) with
  | some p => p.2
  | none => .null

/-- Insert a key into a sorted duplicate-free key list, skipping keys
already present. -/
def insortKey (x : ℚ) : List ℚ → List ℚ
  | [] => [x]
  | y :: ys => if x < y then x :: y :: ys else if x = y then y :: ys else y :: insortKey x ys

/-- Sorted duplicate-free union of a key list (the index union that
`pd.concat(axis=1)` produces for distinct sortable indices). -/
def sortedUnion (l : List ℚ) : List ℚ := l.foldr insortKey []

/-- Embedding of `pd.concat(series_list, axis=1)`:
  * identical indices (even with duplicates) are kept as-is and the columns
    are laid side by side positionally;
  * otherwise all indices must be duplicate-free and the result is indexed
    by their sorted union, each column taking its series value where the
    key is present and a missing cell elsewhere;
  * a duplicated index among distinct indices raises (InvalidIndexError). -/
def concatSeries (ss : List NamedSeries) : Except String Table :=
  let idxs := ss.map seriesKeys
  if idxs.all (fun l => decide (l = idxs.headD [])) then
    .ok ⟨ss.map (fun s => s.name),
         (List.range (idxs.headD []).length).map (fun i =>
           ((idxs.headD []).getD i 0, ss.map (fun s => ((s.entries.getD i (0, .null)).2))))⟩
  else if idxs.all (fun l => decide l.Nodup) then
    let u := sortedUnion idxs.flatten
    .ok ⟨ss.map (fun s => s.name), u.map (fun k => (k, ss.map (fun s => lookupVal s k)))⟩
  else .error "InvalidIndexError: reindexing only valid with uniquely valued index"

/-- The four expected column names, in the fixed source order. -/
def expectedCols : List String :=
  ["Stablecoin_Market_Cap", "ETF_Volume_Proxy", "BTC_Realized_Cap", "Binance_BTC_OI"]

/-- One step of the column-completion loop:
`if col not in final_df.columns: final_df[col] = float('nan')`. -/
def addColIfMissing (t : Table) (c : String) : Table :=
  if c ∈ t.names then t
  else ⟨t.names ++ [c], t.rows.map (fun r => (r.1, r.2 ++ [Json.null]))⟩

/-- The column-completion loop over `expectedCols`. -/
def completeColumns (t : Table) : Table := expectedCols.foldl addColIfMissing t

/-- The sort order of `final_df.sort_index()`: ascending by timestamp. -/
def rowLe (a b : ℚ × List Json) : Prop := a.1 ≤ b.1

instance : DecidableRel rowLe := fun a b => inferInstanceAs (Decidable (a.1 ≤ b.1))

instance : IsTotal (ℚ × List Json) rowLe := ⟨fun a b => le_total a.1 b.1⟩

instance : IsTrans (ℚ × List Json) rowLe := ⟨fun _ _ _ h h2 => le_trans h h2⟩

/-- Embedding of `final_df.sort_index()`: rows sorted ascending by timestamp. -/
def sortStage (t : Table) : Table :=
  ⟨t.names, List.insertionSort rowLe t.rows⟩

/-- Embedding of `final_df = final_df[final_df.index >= one_year_ago]` with
`one_year_ago = pd.Timestamp.now() - pd.DateOffset(days=365)`: keep rows at
or after 365 days before the run timestamp `now`.  No upper cutoff is
applied. -/
def windowStage (t : Table) (now : ℚ) : Table :=
  ⟨t.names, t.rows.filter (fun r => decide (now - 365 * 86400 ≤ r.1))⟩

/-- One ffill update of a cell: a missing cell takes the carried value,
an observed cell is kept. -/
def fillCell (c prev : Json) : Json := if c.isNull then prev else c

/-- Embedding of `ffill` over the rows, carrying the last observed value per column. -/
def ffillRows (carry : List Json) : List (ℚ × List Json) → List (ℚ × List Json)
  | [] => []
  | r :: rs =>
      let cells := List.zipWith fillCell r.2 carry
      (r.1, cells) :: ffillRows cells rs

/-- Embedding of `final_df.ffill()`: forward-fill every column independently. -/
def fillStage (t : Table) : Table :=
  ⟨t.names, ffillRows (List.replicate t.names.length .null) t.rows⟩

/-- Forward fill of a single column, starting from no observed value. -/
def ffillColAux (carry : Json) : List Json → List Json
  | [] => []
  | c :: cs => fillCell c carry :: ffillColAux (fillCell c carry) cs

/-- Forward fill of a single column. -/
def ffillCol (col : List Json) : List Json := ffillColAux .null col

/-- The last non-missing value of a column prefix (missing when the prefix
holds no observed value): the value forward-fill carries. -/
def lastNonNull (l : List Json) : Json :=
  l.foldl (fun acc c => fillCell c acc) .null

/-- Column `j` of a table, as the list of its cells. -/
def getColumn (t : Table) (j : ℕ) : List Json :=
  t.rows.map (fun r => r.2.getD j .null)

/-- A well-formed table: every row has one cell per column label. -/
def tableWF (t : Table) : Prop := ∀ r ∈ t.rows, r.2.length = t.names.length

/-- A serialized CSV cell: a header label, a formatted timestamp, or a
formatted value. -/
inductive CsvCell where
  | txt (s : String)
  | ts (q : ℚ)
  | val (j : Json)

/-- Embedding of `final_df.to_csv(...)`: header row first (the unnamed index column,
then the column labels), then one row per table row with the timestamp
leading. -/
def toCsv (t : Table) : List (List CsvCell) :=
  (CsvCell.txt "" :: t.names.map CsvCell.txt) ::
    t.rows.map (fun r => CsvCell.ts r.1 :: r.2.map CsvCell.val)

/-- The merge-and-complete phase of `update_data`: strip timezones from the
non-empty series, concat them (falling back to the empty table when the
concat raises), then synthesize any missing expected column as all-null. -/
def alignStage (s1 s2 s3 s4 : NamedSeries) : Table :=
  match concatSeries ([s1, s2, s3, s4].map stripTz) with
  | .ok t => completeColumns t
  | .error _ => completeColumns Table.emptyTable

/-- The `if not final_df.empty:` phase: sort, window, forward-fill. -/
def repairStage (t : Table) (now : ℚ) : Table :=
  if tableEmpty t then t else fillStage (windowStage (sortStage t) now)

/-- Embedding of `update_data`: fetch all four series, align and repair, and return the
final table together with the CSV written by `final_df.to_csv` (the write
is unconditional). -/
def update_data (r1 : Response) (r2 : Except String Hist) (r3 r4 : Response)
    (now : ℚ) : Table × List (List CsvCell) :=
  let t := repairStage
    (alignStage (fetch_stablecoin_mcap r1) (fetch_etf_volume r2)
      (fetch_realized_cap r3) (fetch_open_interest r4)) now
  (t, toCsv t)

/- ### Chart renderer (`generate_html`) -/

/-- Embedding of `df.dropna(how='all')`: drop the rows whose cells are all missing. -/
def dropnaAllRows (t : Table) : Table :=
  ⟨t.names, t.rows.filter (fun r => !(r.2.all Json.isNull))⟩

/-- Column of a table by label (empty when the label is absent). -/
def colByName (t : Table) (c : String) : List Json :=
  match t.names.findIdx? (fun n => n == c) with
  | some j => getColumn t j
  | none => []

/-- Embedding of `generate_html`: returns `none` (no file written) when the table is
empty or entirely null, and otherwise `some` chart whose four panels record
which columns have at least one observed value. -/
def generate_html (df : Table) : Option (List Bool) :=
  if tableEmpty df then none
  else if tableEmpty (dropnaAllRows df) then none
  else some (expectedCols.map (fun c => !((colByName df c).all Json.isNull)))

/- ### Forward-fill lemmas -/

/-- The value forward-fill carries over a column prefix, starting from a
carried value `d`. -/
def lastNonNullFrom (d : Json) (l : List Json) : Json :=
  l.foldl (fun acc c => fillCell c acc) d

lemma lastNonNull_eq_from (l : List Json) : lastNonNull l = lastNonNullFrom .null l := rfl

lemma fillCell_null (prev : Json) : fillCell .null prev = prev := rfl

lemma fillCell_of_not_null (c prev : Json) (h : c ≠ .null) : fillCell c prev = c := by
  cases c <;> first | exact absurd rfl h | rfl

lemma ffillColAux_length (carry : Json) (col : List Json) :
    (ffillColAux carry col).length = col.length := by
  induction col generalizing carry with
  | nil => rfl
  | cons c cs ih => simp [ffillColAux, ih]

/-- The fundamental description of forward fill: the cell at position `i`
of the filled column is the last non-missing value of the prefix up to and
including position `i` (falling back to the carried value). -/
lemma ffillColAux_getD (col : List Json) (carry : Json) (i : ℕ) (h : i < col.length) :
    (ffillColAux carry col).getD i .null = lastNonNullFrom carry (col.take (i + 1)) := by
  induction col generalizing carry i with
  | nil => simp at h
  | cons c cs ih =>
      cases i with
      | zero => rfl
      | succ i =>
          simp only [ffillColAux, List.getD_cons_succ, List.take_succ_cons]
          rw [ih (fillCell c carry) i (by simpa using h)]
          rfl

lemma fillCell_fillCell (c carry : Json) :
    fillCell (fillCell c carry) carry = fillCell c carry := by
  cases c <;> cases carry <;> rfl

lemma ffillColAux_idem (col : List Json) (carry : Json) :
    ffillColAux carry (ffillColAux carry col) = ffillColAux carry col := by
  induction col generalizing carry with
  | nil => rfl
  | cons c cs ih =>
      simp only [ffillColAux, fillCell_fillCell]
      rw [ih (fillCell c carry)]

lemma getD_zipWith_fillCell (as bs : List Json) (j : ℕ)
    (hlen : as.length = bs.length) (hj : j < as.length) :
    (List.zipWith fillCell as bs).getD j .null = fillCell (as.getD j .null) (bs.getD j .null) := by
  induction as generalizing bs j with
  | nil => simp at hj
  | cons a as ih =>
      cases bs with
      | nil => simp at hlen
      | cons b bs =>
          cases j with
          | zero => rfl
          | succ j =>
              simp only [List.zipWith_cons_cons, List.getD_cons_succ]
              exact ih bs j (by simpa using hlen) (by simpa using hj)

lemma ffillRows_map_fst (carry : List Json) (rows : List (ℚ × List Json)) :
    (ffillRows carry rows).map Prod.fst = rows.map Prod.fst := by
  induction rows generalizing carry with
  | nil => rfl
  | cons r rs ih => simp [ffillRows, ih]

/-- Forward-filling the rows acts column-wise as `ffillColAux`. -/
lemma ffillRows_getD_col (rows : List (ℚ × List Json)) (carry : List Json) (j : ℕ)
    (hlen : ∀ r ∈ rows, r.2.length = carry.length) (hj : j < carry.length) :
    (ffillRows carry rows).map (fun r => r.2.getD j .null) =
      ffillColAux (carry.getD j .null) (rows.map (fun r => r.2.getD j .null)) := by
  induction rows generalizing carry with
  | nil => rfl
  | cons r rs ih =>
      have hr : r.2.length = carry.length := hlen r (List.mem_cons_self r rs)
      have hcells : (List.zipWith fillCell r.2 carry).length = carry.length := by
        simp [List.length_zipWith, hr]
      simp only [ffillRows, List.map_cons, ffillColAux]
      have hz := getD_zipWith_fillCell r.2 carry j (by rw [hr]) (by rw [hr]; exact hj)
      rw [hz]
      congr 1
      rw [ih (List.zipWith fillCell r.2 carry)
        (fun r' hr' => by rw [hcells]; exact hlen r' (List.mem_cons_of_mem r hr'))
        (by rw [hcells]; exact hj)]
      rw [hz]

lemma getD_replicate_null (n j : ℕ) :
    (List.replicate n (Json.null)).getD j .null = .null := by
  induction n generalizing j with
  | zero => rfl
  | succ n ih => cases j with
      | zero => rfl
      | succ j => exact ih j

/-- Embedding of `fillStage` acts on every column as the single-column forward fill. -/
lemma getColumn_fillStage (t : Table) (j : ℕ)
    (hwf : tableWF t) (hj : j < t.names.length) :
    getColumn (fillStage t) j = ffillCol (getColumn t j) := by
  unfold getColumn fillStage ffillCol
  have := ffillRows_getD_col t.rows (List.replicate t.names.length .null) j
    (fun r hr => by simpa using hwf r hr) (by simpa using hj)
  simpa [getD_replicate_null] using this

lemma getColumn_length (t : Table) (j : ℕ) : (getColumn t j).length = t.rows.length := by
  simp [getColumn]

/-- Claim C2: in the gap-fill step, for every column independently, a null
entry is replaced by the value of the nearest earlier non-null entry in the
same column (and remains null when the column has no earlier non-null
entry): the filled cell at row `i` equals the last non-null value of the
column strictly before row `i`. -/
theorem gap_fill_nearest_earlier (t : Table) (j i : ℕ)
    (hwf : tableWF t) (hj : j < t.names.length) (hi : i < t.rows.length)
    (hnull : (getColumn t j).getD i .null = Json.null) :
    (getColumn (fillStage t) j).getD i .null = lastNonNull ((getColumn t j).take i) := by
  rw [getColumn_fillStage t j hwf hj]
  unfold ffillCol
  rw [ffillColAux_getD (getColumn t j) .null i (by rw [getColumn_length]; exact hi)]
  have htake : (getColumn t j).take (i + 1) =
      (getColumn t j).take i ++ (getColumn t j)[i]?.toList := List.take_succ
  have hgetelem : (getColumn t j)[i]? = some (Json.null) := by
    have hlt : i < (getColumn t j).length := by rw [getColumn_length]; exact hi
    rw [List.getElem?_eq_getElem hlt]
    rw [← List.getD_eq_getElem _ Json.null hlt]
    exact congrArg some hnull
  rw [lastNonNull_eq_from]
  rw [htake, hgetelem]
  unfold lastNonNullFrom
  rw [List.foldl_append]
  rfl

/-- Claim C9: the forward-fill step is idempotent on every column:
re-running the fill on an already-filled column is a no-op. -/
theorem gap_fill_idempotent (col : List Json) : ffillCol (ffillCol col) = ffillCol col :=
  ffillColAux_idem col .null

/-- Claim C10: the gap-fill step modifies only null entries: a cell of the
windowed table holding a non-null value holds exactly the same value after
forward fill. -/
theorem gap_fill_frame (t : Table) (j i : ℕ)
    (hwf : tableWF t) (hj : j < t.names.length) (hi : i < t.rows.length)
    (hobs : (getColumn t j).getD i .null ≠ Json.null) :
    (getColumn (fillStage t) j).getD i .null = (getColumn t j).getD i .null := by
  rw [getColumn_fillStage t j hwf hj]
  unfold ffillCol
  rw [ffillColAux_getD (getColumn t j) .null i (by rw [getColumn_length]; exact hi)]
  have hlt : i < (getColumn t j).length := by rw [getColumn_length]; exact hi
  have htake : (getColumn t j).take (i + 1) =
      (getColumn t j).take i ++ (getColumn t j)[i]?.toList := List.take_succ
  have hgetelem : (getColumn t j)[i]? = some ((getColumn t j).getD i .null) := by
    rw [List.getElem?_eq_getElem hlt]
    exact congrArg some (List.getD_eq_getElem _ Json.null hlt).symm
  rw [htake, hgetelem]
  unfold lastNonNullFrom
  rw [List.foldl_append]
  exact fillCell_of_not_null _ _ hobs

/-- Witness for C2: a two-row table whose column holds an observed value
then a null; the filled cell at row 1 is the nearest earlier non-null
value. -/
theorem gap_fill_nearest_earlier_witness :
    (getColumn (fillStage ⟨["A"], [(0, [Json.num 1]), (1, [Json.null])]⟩) 0).getD 1 .null =
      lastNonNull ((getColumn ⟨["A"], [(0, [Json.num 1]), (1, [Json.null])]⟩ 0).take 1) :=
  gap_fill_nearest_earlier ⟨["A"], [(0, [Json.num 1]), (1, [Json.null])]⟩ 0 1
    (by unfold tableWF; decide) (by decide) (by decide) rfl

/-- Witness for C10: a one-row table with an observed cell; the fill step
leaves it unchanged. -/
theorem gap_fill_frame_witness :
    (getColumn (fillStage ⟨["A"], [(0, [Json.num 3])]⟩) 0).getD 0 .null =
      (getColumn ⟨["A"], [(0, [Json.num 3])]⟩ 0).getD 0 .null :=
  gap_fill_frame ⟨["A"], [(0, [Json.num 3])]⟩ 0 0
    (by unfold tableWF; decide) (by decide) (by decide)
    (fun h => Json.noConfusion h)

/- ### Adapter name and shape lemmas -/

lemma fetch_stablecoin_name (r : Response) :
    (fetch_stablecoin_mcap r).name = "Stablecoin_Market_Cap" := by
  unfold fetch_stablecoin_mcap; split <;> rfl

lemma fetch_etf_name (r : Except String Hist) :
    (fetch_etf_volume r).name = "ETF_Volume_Proxy" := by
  unfold fetch_etf_volume; split <;> rfl

lemma fetch_realized_name (r : Response) :
    (fetch_realized_cap r).name = "BTC_Realized_Cap" := by
  unfold fetch_realized_cap; split <;> rfl

lemma fetch_oi_name (r : Response) :
    (fetch_open_interest r).name = "Binance_BTC_OI" := by
  unfold fetch_open_interest; split <;> rfl

lemma stripTz_name (s : NamedSeries) : (stripTz s).name = s.name := by
  unfold stripTz; split <;> rfl

lemma stripTz_entries (s : NamedSeries) : (stripTz s).entries = s.entries := by
  unfold stripTz; split <;> rfl

lemma seriesKeys_stripTz (s : NamedSeries) : seriesKeys (stripTz s) = seriesKeys s := by
  unfold seriesKeys; rw [stripTz_entries]

/- ### Column-set lemmas (alignment schema invariant) -/

lemma concatSeries_ok_names (ss : List NamedSeries) (t : Table)
    (h : concatSeries ss = .ok t) : t.names = ss.map (fun s => s.name) := by
  simp only [concatSeries] at h
  split at h
  · cases h; rfl
  · split at h
    · cases h; rfl
    · cases h

lemma completeColumns_of_expected (rows : List (ℚ × List Json)) :
    completeColumns ⟨expectedCols, rows⟩ = ⟨expectedCols, rows⟩ := rfl

lemma completeColumns_empty : completeColumns Table.emptyTable = ⟨expectedCols, []⟩ := rfl

lemma sortStage_names (t : Table) : (sortStage t).names = t.names := rfl

lemma windowStage_names (t : Table) (now : ℚ) : (windowStage t now).names = t.names := rfl

lemma fillStage_names (t : Table) : (fillStage t).names = t.names := rfl

lemma repairStage_names (t : Table) (now : ℚ) : (repairStage t now).names = t.names := by
  unfold repairStage; split <;> rfl

lemma alignStage_names (s1 s2 s3 s4 : NamedSeries)
    (h1 : s1.name = "Stablecoin_Market_Cap") (h2 : s2.name = "ETF_Volume_Proxy")
    (h3 : s3.name = "BTC_Realized_Cap") (h4 : s4.name = "Binance_BTC_OI") :
    (alignStage s1 s2 s3 s4).names = expectedCols := by
  unfold alignStage
  cases hc : concatSeries (List.map stripTz [s1, s2, s3, s4]) with
  | ok t =>
      have hn : t.names = expectedCols := by
        rw [concatSeries_ok_names _ _ hc]
        simp [stripTz_name, h1, h2, h3, h4, expectedCols]
      obtain ⟨names, rows⟩ := t
      simp only at hn
      subst hn
      show (completeColumns ⟨expectedCols, rows⟩).names = expectedCols
      rw [completeColumns_of_expected]
  | error e =>
      show (completeColumns Table.emptyTable).names = expectedCols
      rw [completeColumns_empty]

/-- The schema invariant: whatever the four responses were, and even when
the concat failed, the table produced by `update_data` has exactly the
four expected columns, in order. -/
lemma update_data_names (r1 : Response) (r2 : Except String Hist) (r3 r4 : Response)
    (now : ℚ) : ((update_data r1 r2 r3 r4 now).1).names = expectedCols := by
  show (repairStage (alignStage (fetch_stablecoin_mcap r1) (fetch_etf_volume r2)
    (fetch_realized_cap r3) (fetch_open_interest r4)) now).names = expectedCols
  rw [repairStage_names]
  exact alignStage_names _ _ _ _ (fetch_stablecoin_name r1) (fetch_etf_name r2)
    (fetch_realized_name r3) (fetch_oi_name r4)

/-- Claim C1: for every run of `update_data`, whatever subset of the four
adapters returned empty series and even when the join itself fails, the
resulting table has exactly the columns Stablecoin_Market_Cap,
ETF_Volume_Proxy, BTC_Realized_Cap and Binance_BTC_OI, in order, no more
and no fewer. -/
theorem aligned_table_columns (r1 : Response) (r2 : Except String Hist) (r3 r4 : Response)
    (now : ℚ) :
    ((update_data r1 r2 r3 r4 now).1).names =
      ["Stablecoin_Market_Cap", "ETF_Volume_Proxy", "BTC_Realized_Cap", "Binance_BTC_OI"] :=
  update_data_names r1 r2 r3 r4 now

/-- Claim C8: the persisted file always has the timestamp as its leading
column (the index cell of the header, then one timestamp leading each data
row) followed by the four metric columns in the fixed order. -/
theorem csv_layout (r1 : Response) (r2 : Except String Hist) (r3 r4 : Response) (now : ℚ) :
    (update_data r1 r2 r3 r4 now).2 =
      (CsvCell.txt "" :: (["Stablecoin_Market_Cap", "ETF_Volume_Proxy",
          "BTC_Realized_Cap", "Binance_BTC_OI"]).map CsvCell.txt) ::
        ((update_data r1 r2 r3 r4 now).1).rows.map
          (fun r => CsvCell.ts r.1 :: r.2.map CsvCell.val) := by
  show toCsv (update_data r1 r2 r3 r4 now).1 = _
  unfold toCsv
  rw [update_data_names]
  rfl

/- ### Vacuity lemmas (chart renderer) -/

lemma json_isNull_iff (c : Json) : c.isNull = true ↔ c = Json.null := by
  cases c <;> simp [Json.isNull]

lemma generate_html_none_of_vacuous (t : Table)
    (h : t.rows = [] ∨ ∀ row ∈ t.rows, ∀ c ∈ row.2, c = Json.null) :
    generate_html t = none := by
  unfold generate_html
  rcases h with h | h
  · rw [if_pos]
    simp [tableEmpty, h]
  · by_cases he : tableEmpty t = true
    · rw [if_pos he]
    · rw [if_neg he, if_pos]
      have : (dropnaAllRows t).rows = [] := by
        unfold dropnaAllRows
        simp only
        rw [List.filter_eq_nil_iff]
        intro r hr
        have hall : r.2.all Json.isNull = true := by
          rw [List.all_eq_true]
          intro c hc
          rw [json_isNull_iff]
          exact h r hr c hc
        simp [hall]
      simp [tableEmpty, this]

/-- Claim C7: vacuous output skips the chart write while persistence still
runs: the CSV write of `update_data` is unconditional, and whenever the
resulting table has zero rows or only null values, `generate_html` writes
nothing. -/
theorem vacuous_skips_render_not_persist (r1 : Response) (r2 : Except String Hist)
    (r3 r4 : Response) (now : ℚ) :
    (update_data r1 r2 r3 r4 now).2 = toCsv (update_data r1 r2 r3 r4 now).1 ∧
    (((update_data r1 r2 r3 r4 now).1.rows = [] ∨
        ∀ row ∈ (update_data r1 r2 r3 r4 now).1.rows, ∀ c ∈ row.2, c = Json.null) →
      generate_html (update_data r1 r2 r3 r4 now).1 = none) :=
  ⟨rfl, fun h => generate_html_none_of_vacuous _ h⟩

/-- Witness for C7: with all four adapters failing, the table is empty, so
the chart renderer writes nothing (while the CSV pair is still produced). -/
theorem vacuous_skips_render_not_persist_witness :
    generate_html (update_data (.error "e") (.error "e") (.error "e") (.error "e") 0).1 = none :=
  (vacuous_skips_render_not_persist (.error "e") (.error "e") (.error "e") (.error "e") 0).2
    (Or.inl rfl)

/- ### Adapter fail-safety (claim C4) -/

/-- Claim C4: every adapter, on every failure mode — raised network
error/timeout (`Except.error`), a mapping where a sequence was expected, a
response that is neither mapping nor sequence, a missing expected top-level
data key, or a value-parsing failure — stays total, returning the empty
series carrying its correct fixed name (never a zero-valued series); and
its name is correct on every input whatsoever. -/
theorem adapters_fail_safe (e : String) (r : Response) (h : Except String Hist)
    (kvs : List (String × Json)) (q : ℚ)
    (hkey : kvs.any (fun p => p.1 == "data") = false) :
    (fetch_stablecoin_mcap r).name = "Stablecoin_Market_Cap" ∧
    (fetch_etf_volume h).name = "ETF_Volume_Proxy" ∧
    (fetch_realized_cap r).name = "BTC_Realized_Cap" ∧
    (fetch_open_interest r).name = "Binance_BTC_OI" ∧
    fetch_stablecoin_mcap (.error e) = emptySeries "Stablecoin_Market_Cap" ∧
    fetch_etf_volume (.error e) = emptySeries "ETF_Volume_Proxy" ∧
    fetch_realized_cap (.error e) = emptySeries "BTC_Realized_Cap" ∧
    fetch_open_interest (.error e) = emptySeries "Binance_BTC_OI" ∧
    fetch_open_interest (.ok (.obj kvs)) = emptySeries "Binance_BTC_OI" ∧
    fetch_open_interest (.ok (.num q)) = emptySeries "Binance_BTC_OI" ∧
    fetch_realized_cap (.ok (.obj kvs)) = emptySeries "BTC_Realized_Cap" ∧
    fetch_stablecoin_mcap (.ok (.num q)) = emptySeries "Stablecoin_Market_Cap" ∧
    fetch_stablecoin_mcap (.ok (.obj [("error", .str "blocked")])) =
      emptySeries "Stablecoin_Market_Cap" ∧
    fetch_stablecoin_mcap
        (.ok (.arr [.obj [("date", .str "not a number"), ("totalCirculating", .num 1)]])) =
      emptySeries "Stablecoin_Market_Cap" := by
  refine ⟨fetch_stablecoin_name r, fetch_etf_name h, fetch_realized_name r, fetch_oi_name r,
    rfl, rfl, rfl, rfl, rfl, rfl, ?_, rfl, rfl, rfl⟩
  unfold fetch_realized_cap fetch_realized_body
  simp [Bind.bind, Except.bind, jsonContains, hkey, emptySeries]

/-- Witness for C4: a blocked Binance response (a mapping instead of the
expected sequence) yields the empty, correctly named open-interest
series. -/
theorem adapters_fail_safe_witness :
    fetch_open_interest (.ok (.obj [("code", .num 0)])) = emptySeries "Binance_BTC_OI" :=
  (adapters_fail_safe "timeout" (.error "timeout") (.error "timeout")
    [("code", .num 0)] 0 (by decide)).2.2.2.2.2.2.2.2.1

/- ### Timezone handling (claim C5) -/

lemma bindOk {α β : Type} {m : Except String α} {f : α → Except String β} {b : β}
    (h : m >>= f = Except.ok b) : ∃ a, m = .ok a ∧ f a = .ok b := by
  cases m with
  | error e => simp [Bind.bind, Except.bind] at h
  | ok a => exact ⟨a, rfl, by simpa [Bind.bind, Except.bind] using h⟩

lemma fetch_stablecoin_body_tz (r : Response) (p : Bool × List (ℚ × Json))
    (h : fetch_stablecoin_body r = .ok p) : p.1 = false := by
  unfold fetch_stablecoin_body at h
  obtain ⟨j, -, h⟩ := bindOk h
  obtain ⟨df, -, h⟩ := bindOk h
  obtain ⟨dateRaw, -, h⟩ := bindOk h
  obtain ⟨dates, -, h⟩ := bindOk h
  obtain ⟨vals, -, h⟩ := bindOk h
  cases h
  rfl

lemma fetch_etf_body_tz (r : Except String Hist) (p : Bool × List (ℚ × Json))
    (h : fetch_etf_body r = .ok p) : p.1 = false := by
  unfold fetch_etf_body at h
  obtain ⟨hist, -, h⟩ := bindOk h
  split at h
  · cases h; rfl
  · obtain ⟨prods, -, h⟩ := bindOk h
    cases h
    rfl

lemma fetch_realized_body_tz (r : Response) (p : Bool × List (ℚ × Json))
    (h : fetch_realized_body r = .ok p) : p.1 = false := by
  unfold fetch_realized_body at h
  obtain ⟨j, -, h⟩ := bindOk h
  obtain ⟨b, -, h⟩ := bindOk h
  cases b with
  | true =>
      rw [if_neg (by simp)] at h
      obtain ⟨d, -, h⟩ := bindOk h
      obtain ⟨df, -, h⟩ := bindOk h
      obtain ⟨timeRaw, -, h⟩ := bindOk h
      obtain ⟨tp, -, h⟩ := bindOk h
      obtain ⟨valsRaw, -, h⟩ := bindOk h
      obtain ⟨vals, -, h⟩ := bindOk h
      cases h
      cases htz : tp.2 <;> simp [htz]
  | false =>
      rw [if_pos (by simp)] at h
      cases h
      rfl

lemma fetch_oi_body_tz (r : Response) (p : Bool × List (ℚ × Json))
    (h : fetch_oi_body r = .ok p) : p.1 = false := by
  unfold fetch_oi_body at h
  obtain ⟨j, -, h⟩ := bindOk h
  split at h
  · cases h; rfl
  · split at h
    · cases h; rfl
    · obtain ⟨df, -, h⟩ := bindOk h
      split at h
      · cases h; rfl
      · obtain ⟨tsRaw, -, h⟩ := bindOk h
        obtain ⟨tsF, -, h⟩ := bindOk h
        obtain ⟨valsRaw, -, h⟩ := bindOk h
        obtain ⟨vals, -, h⟩ := bindOk h
        cases h
        rfl

lemma fetch_stablecoin_tz (r : Response) : (fetch_stablecoin_mcap r).tz = false := by
  unfold fetch_stablecoin_mcap
  cases hb : fetch_stablecoin_body r with
  | ok p => exact fetch_stablecoin_body_tz r p hb
  | error e => rfl

lemma fetch_etf_tz (r : Except String Hist) : (fetch_etf_volume r).tz = false := by
  unfold fetch_etf_volume
  cases hb : fetch_etf_body r with
  | ok p => exact fetch_etf_body_tz r p hb
  | error e => rfl

lemma fetch_realized_tz (r : Response) : (fetch_realized_cap r).tz = false := by
  unfold fetch_realized_cap
  cases hb : fetch_realized_body r with
  | ok p => exact fetch_realized_body_tz r p hb
  | error e => rfl

lemma fetch_oi_tz (r : Response) : (fetch_open_interest r).tz = false := by
  unfold fetch_open_interest
  cases hb : fetch_oi_body r with
  | ok p => exact fetch_oi_body_tz r p hb
  | error e => rfl

/-- Counterexample to C5: a TimePoint of a normalized series need not be a
pure calendar date.  A DeFiLlama response with epoch timestamp `90` is
normalized to the timestamp 90 seconds after midnight: the adapter strips
timezones but never truncates the time-of-day component. -/
theorem calendar_date_counterexample :
    (fetch_stablecoin_mcap
        (.ok (.arr [.obj [("date", .str "90"), ("totalCirculating", .num 1)]]))).entries.map
      Prod.fst = [(90 : ℚ)] ∧
    ¬ ∃ k : ℤ, (90 : ℚ) = 86400 * k := by
  constructor
  · rfl
  · rintro ⟨k, hk⟩
    have hz : (90 : ℤ) = 86400 * k := by exact_mod_cast hk
    omega

/-- Claim C5, amended: every normalized series is timezone-free (any
timezone information carried by the upstream response is removed), but the
time-of-day component of the source timestamps is preserved, so
observations on the same calendar day align only when their naive
timestamps coincide. -/
theorem normalized_series_tz_naive (r1 : Response) (r2 : Except String Hist)
    (r3 r4 : Response) :
    (fetch_stablecoin_mcap r1).tz = false ∧ (fetch_etf_volume r2).tz = false ∧
    (fetch_realized_cap r3).tz = false ∧ (fetch_open_interest r4).tz = false :=
  ⟨fetch_stablecoin_tz r1, fetch_etf_tz r2, fetch_realized_tz r3, fetch_oi_tz r4⟩

/- ### Numeric coercion failure semantics (claim C6) -/

/-- Counterexample to C6: feeding the string `$1,234.50` through the
realized-cap adapter does not store the number 1234.50, nor does it null
only that entry: `pd.to_numeric` (default `errors=raise`) raises and the
adapter boundary converts the whole series to the empty named series. -/
theorem currency_string_counterexample :
    (fetch_realized_cap (.ok (.obj [("data",
        .arr [.obj [("time", .str "1970-01-02"),
          ("CapRealizedUSD", .str "$1,234.50")]])]))).entries = [] ∧
    ((86400 : ℚ), Json.num (2469 / 2)) ∉
      (fetch_realized_cap (.ok (.obj [("data",
        .arr [.obj [("time", .str "1970-01-02"),
          ("CapRealizedUSD", .str "$1,234.50")]])]))).entries ∧
    ((86400 : ℚ), Json.null) ∉
      (fetch_realized_cap (.ok (.obj [("data",
        .arr [.obj [("time", .str "1970-01-02"),
          ("CapRealizedUSD", .str "$1,234.50")]])]))).entries :=
  ⟨rfl, List.not_mem_nil _, List.not_mem_nil _⟩

/-- Claim C6, amended: the normalization pipeline coerces values with
`pd.to_numeric` under `errors=raise`, so a non-numeric entry (such as
`$1,234.50`) does not become null in place: the raised coercion error is
caught at the adapter boundary and the entire series collapses to the
empty named series. -/
theorem bad_value_empties_series (d v : String) (td : ℚ) (bd : Bool)
    (hd : parseIso d = some (td, bd)) (hv : parseDecimal v = none) :
    fetch_realized_cap (.ok (.obj [("data",
      .arr [.obj [("time", .str d), ("CapRealizedUSD", .str v)]])])) =
      emptySeries "BTC_Realized_Cap" := by
  have h1 : pdToDatetimeCell (.str d) = .ok (td, bd) := by
    simp only [pdToDatetimeCell]; rw [hd]
  have h2 : toNumericCell (.str v) = .error "could not convert string to float" := by
    simp only [toNumericCell]; rw [hv]
  unfold fetch_realized_cap fetch_realized_body
  cases bd <;>
  simp [h1, h2, jsonContains, jsonIndex, pdDataFrame, recordKeys, lookupField,
    jsonArrElems, dfCol, pdToDatetimeList, toNumericList, Bind.bind, Except.bind,
    List.mapM.loop, pure, Except.pure, emptySeries]

/-- Witness for the amended C6 at the concrete currency string. -/
theorem bad_value_empties_series_witness :
    fetch_realized_cap (.ok (.obj [("data",
      .arr [.obj [("time", .str "1970-01-03"),
        ("CapRealizedUSD", .str "$2,000.00")]])])) =
      emptySeries "BTC_Realized_Cap" :=
  bad_value_empties_series "1970-01-03" "$2,000.00"
    ((86400 : ℚ) * ((daysSinceEpoch 1970 1 3 : ℤ) : ℚ)) false rfl (by decide)

/- ### Chronology lemmas (claim C3) -/

lemma mem_insortKey (b x : ℚ) (l : List ℚ) (h : b ∈ insortKey x l) : b = x ∨ b ∈ l := by
  induction l with
  | nil =>
      simp only [insortKey] at h
      exact Or.inl (List.mem_singleton.mp h)
  | cons y ys ih =>
      simp only [insortKey] at h
      split at h
      · rcases List.mem_cons.mp h with rfl | h
        · exact Or.inl rfl
        · exact Or.inr h
      · split at h
        · exact Or.inr h
        · rcases List.mem_cons.mp h with rfl | h
          · exact Or.inr (List.mem_cons_self _ _)
          · rcases ih h with rfl | h
            · exact Or.inl rfl
            · exact Or.inr (List.mem_cons_of_mem y h)

lemma insortKey_sorted (x : ℚ) (l : List ℚ) (h : List.Sorted (· < ·) l) :
    List.Sorted (· < ·) (insortKey x l) := by
  induction l with
  | nil => simp [insortKey]
  | cons y ys ih =>
      rcases List.sorted_cons.mp h with ⟨hy, hys⟩
      simp only [insortKey]
      split
      · rename_i hlt
        refine List.sorted_cons.mpr ⟨?_, h⟩
        intro b hb
        rcases List.mem_cons.mp hb with rfl | hb
        · exact hlt
        · exact lt_trans hlt (hy b hb)
      · split
        · exact h
        · rename_i hnlt hne
          refine List.sorted_cons.mpr ⟨?_, ih hys⟩
          intro b hb
          rcases mem_insortKey b x ys hb with rfl | hb
          · rcases lt_trichotomy b y with hl | hl | hl
            · exact absurd hl hnlt
            · exact absurd hl hne
            · exact hl
          · exact hy b hb

lemma sortedUnion_sorted (l : List ℚ) : List.Sorted (· < ·) (sortedUnion l) := by
  induction l with
  | nil => simp [sortedUnion]
  | cons x xs ih => exact insortKey_sorted x (sortedUnion xs) ih

lemma sortedUnion_nodup (l : List ℚ) : (sortedUnion l).Nodup :=
  (sortedUnion_sorted l).nodup

lemma range_getD_eq (l : List ℚ) :
    (List.range l.length).map (fun i => l.getD i 0) = l := by
  induction l with
  | nil => rfl
  | cons x xs ih =>
      rw [List.length_cons, List.range_succ_eq_map, List.map_cons, List.map_map]
      have hmap : (List.range xs.length).map ((fun i => (x :: xs).getD i 0) ∘ Nat.succ) =
          (List.range xs.length).map (fun i => xs.getD i 0) :=
        List.map_congr_left (fun i _ => rfl)
      rw [hmap, ih]
      rfl

lemma concatSeries_ok_keys_nodup (ss : List NamedSeries) (t : Table)
    (h : concatSeries ss = .ok t) (hnd : ∀ s ∈ ss, (seriesKeys s).Nodup) :
    (t.rows.map Prod.fst).Nodup := by
  simp only [concatSeries] at h
  split at h
  · cases h
    simp only [List.map_map]
    have hfst : ((List.map seriesKeys ss).headD []).length =
        ((List.map seriesKeys ss).headD []).length := rfl
    have : (List.range ((List.map seriesKeys ss).headD []).length).map
        (Prod.fst ∘ fun i => (((List.map seriesKeys ss).headD []).getD i 0,
          ss.map (fun s => (s.entries.getD i (0, Json.null)).2))) =
        (List.range ((List.map seriesKeys ss).headD []).length).map
          (fun i => ((List.map seriesKeys ss).headD []).getD i 0) := by
      apply List.map_congr_left; intro i _; rfl
    rw [this, range_getD_eq]
    cases ss with
    | nil => simp
    | cons s ss2 => exact hnd s (List.mem_cons_self s ss2)
  · split at h
    · cases h
      simp only [List.map_map]
      have : (sortedUnion (List.map seriesKeys ss).flatten).map
          (Prod.fst ∘ fun k => (k, ss.map (fun s => lookupVal s k))) =
          (sortedUnion (List.map seriesKeys ss).flatten).map id := by
        apply List.map_congr_left; intro k _; rfl
      rw [this, List.map_id]
      exact sortedUnion_nodup _
    · cases h

lemma addColIfMissing_keys (t : Table) (c : String) :
    (addColIfMissing t c).rows.map Prod.fst = t.rows.map Prod.fst := by
  unfold addColIfMissing
  split
  · rfl
  · simp

lemma foldl_addCol_keys (cs : List String) (t : Table) :
    ((cs.foldl addColIfMissing t).rows).map Prod.fst = t.rows.map Prod.fst := by
  induction cs generalizing t with
  | nil => rfl
  | cons c cs ih => rw [List.foldl_cons, ih, addColIfMissing_keys]

lemma completeColumns_keys (t : Table) :
    ((completeColumns t).rows).map Prod.fst = t.rows.map Prod.fst :=
  foldl_addCol_keys expectedCols t

lemma alignStage_keys_nodup (s1 s2 s3 s4 : NamedSeries)
    (h1 : (seriesKeys s1).Nodup) (h2 : (seriesKeys s2).Nodup)
    (h3 : (seriesKeys s3).Nodup) (h4 : (seriesKeys s4).Nodup) :
    ((alignStage s1 s2 s3 s4).rows.map Prod.fst).Nodup := by
  unfold alignStage
  cases hc : concatSeries (List.map stripTz [s1, s2, s3, s4]) with
  | ok t =>
      show ((completeColumns t).rows.map Prod.fst).Nodup
      rw [completeColumns_keys]
      refine concatSeries_ok_keys_nodup _ t hc ?_
      intro s hs
      simp only [List.map_cons, List.map_nil, List.mem_cons, List.not_mem_nil,
        or_false] at hs
      rcases hs with rfl | rfl | rfl | rfl
      · rw [seriesKeys_stripTz]; exact h1
      · rw [seriesKeys_stripTz]; exact h2
      · rw [seriesKeys_stripTz]; exact h3
      · rw [seriesKeys_stripTz]; exact h4
  | error e =>
      show ((completeColumns Table.emptyTable).rows.map Prod.fst).Nodup
      rw [completeColumns_empty]
      simp

lemma sorted_lt_of_le_nodup (l : List ℚ) (hs : List.Sorted (· ≤ ·) l) (hn : l.Nodup) :
    List.Sorted (· < ·) l :=
  (hs.and hn).imp (fun h => lt_of_le_of_ne h.1 h.2)

/-- Claim C3, amended: for inputs respecting the NamedSeries invariant
(unique keys per series), every table produced by `update_data` has rows
strictly ascending by timestamp, and every row timestamp is at or after
`now - 365` days.  (No upper cutoff at the run date is applied by the
code: see the counterexample.) -/
theorem rows_sorted_and_lower_bounded (r1 : Response) (r2 : Except String Hist)
    (r3 r4 : Response) (now : ℚ)
    (h1 : (seriesKeys (fetch_stablecoin_mcap r1)).Nodup)
    (h2 : (seriesKeys (fetch_etf_volume r2)).Nodup)
    (h3 : (seriesKeys (fetch_realized_cap r3)).Nodup)
    (h4 : (seriesKeys (fetch_open_interest r4)).Nodup) :
    List.Sorted (· < ·) (((update_data r1 r2 r3 r4 now).1).rows.map Prod.fst) ∧
    ∀ k ∈ ((update_data r1 r2 r3 r4 now).1).rows.map Prod.fst,
      now - 365 * 86400 ≤ k := by
  have hupd : (update_data r1 r2 r3 r4 now).1 =
      repairStage (alignStage (fetch_stablecoin_mcap r1) (fetch_etf_volume r2)
        (fetch_realized_cap r3) (fetch_open_interest r4)) now := rfl
  rw [hupd]
  set t0 := alignStage (fetch_stablecoin_mcap r1) (fetch_etf_volume r2)
    (fetch_realized_cap r3) (fetch_open_interest r4) with ht0
  have hnod : (t0.rows.map Prod.fst).Nodup := alignStage_keys_nodup _ _ _ _ h1 h2 h3 h4
  have hnames : t0.names = expectedCols :=
    alignStage_names _ _ _ _ (fetch_stablecoin_name r1) (fetch_etf_name r2)
      (fetch_realized_name r3) (fetch_oi_name r4)
  unfold repairStage
  by_cases he : tableEmpty t0 = true
  · rw [if_pos he]
    have hrows : t0.rows = [] := by
      unfold tableEmpty at he
      rcases Bool.or_eq_true_iff.mp he with he | he
      · exact List.isEmpty_iff.mp he
      · rw [hnames] at he
        cases he
    rw [hrows]
    exact ⟨List.sorted_nil, fun k hk => absurd hk (List.not_mem_nil k)⟩
  · rw [if_neg he]
    have hfillkeys : (fillStage (windowStage (sortStage t0) now)).rows.map Prod.fst =
        (windowStage (sortStage t0) now).rows.map Prod.fst := ffillRows_map_fst _ _
    rw [hfillkeys]
    have hperm : (sortStage t0).rows.Perm t0.rows := List.perm_insertionSort rowLe t0.rows
    have hsorted : List.Sorted rowLe (sortStage t0).rows :=
      List.sorted_insertionSort rowLe t0.rows
    have hnod1 : ((sortStage t0).rows.map Prod.fst).Nodup :=
      ((hperm.map Prod.fst).nodup_iff).mpr hnod
    have hkeysSorted : List.Sorted (· ≤ ·) ((sortStage t0).rows.map Prod.fst) :=
      List.Pairwise.map Prod.fst (fun _ _ hab => hab) hsorted
    have hkeysLt := sorted_lt_of_le_nodup _ hkeysSorted hnod1
    constructor
    · exact hkeysLt.sublist ((List.filter_sublist _).map Prod.fst)
    · intro k hk
      rcases List.mem_map.mp hk with ⟨r, hr, rfl⟩
      rcases List.mem_filter.mp hr with ⟨-, hpred⟩
      exact of_decide_eq_true hpred

/-- Witness for the amended C3: all four adapters fail, every series has
(vacuously) unique keys, and the resulting table is chronological and
lower-bounded. -/
theorem rows_sorted_and_lower_bounded_witness :
    List.Sorted (· < ·)
      (((update_data (.error "e") (.error "e") (.error "e") (.error "e") 7).1).rows.map
        Prod.fst) ∧
    ∀ k ∈ ((update_data (.error "e") (.error "e") (.error "e") (.error "e") 7).1).rows.map
        Prod.fst, (7 : ℚ) - 365 * 86400 ≤ k :=
  rows_sorted_and_lower_bounded (.error "e") (.error "e") (.error "e") (.error "e") 7
    (by decide) (by decide) (by decide) (by decide)

/-- Counterexample to C3 as stated: `update_data` applies no upper cutoff
at the run date.  With run timestamp 0 and a DeFiLlama observation dated
one day in the future, the resulting table retains a row whose TimePoint
exceeds the run date. -/
theorem rows_upper_bound_counterexample :
    (86400 : ℚ) ∈ ((update_data
        (.ok (.arr [.obj [("date", .str "86400"), ("totalCirculating", .num 1)]]))
        (.error "e") (.error "e") (.error "e") 0).1).rows.map Prod.fst ∧
    ¬ ((86400 : ℚ) ≤ 0) := by
  have hcut : (0 : ℚ) - 365 * 86400 ≤ 86400 := by norm_num
  have hcutn : (-(365 * 86400) : ℚ) ≤ 86400 := by norm_num
  constructor
  · show (86400 : ℚ) ∈ (repairStage (alignStage
        (fetch_stablecoin_mcap (.ok (.arr [.obj [("date", .str "86400"),
          ("totalCirculating", .num 1)]])))
        (fetch_etf_volume (.error "e")) (fetch_realized_cap (.error "e"))
        (fetch_open_interest (.error "e"))) 0).rows.map Prod.fst
    have hA : sortStage (alignStage
        (fetch_stablecoin_mcap (.ok (.arr [.obj [("date", .str "86400"),
          ("totalCirculating", .num 1)]])))
        (fetch_etf_volume (.error "e")) (fetch_realized_cap (.error "e"))
        (fetch_open_interest (.error "e"))) =
        ⟨expectedCols, [((86400 : ℚ), [Json.num 1, Json.null, Json.null, Json.null])]⟩ := rfl
    unfold repairStage
    rw [if_neg (by decide)]
    rw [hA]
    have hw : windowStage
        (⟨expectedCols, [((86400 : ℚ), [Json.num 1, Json.null, Json.null, Json.null])]⟩ : Table)
          0 =
        ⟨expectedCols, [((86400 : ℚ), [Json.num 1, Json.null, Json.null, Json.null])]⟩ := by
      unfold windowStage
      simp [hcut, hcutn]
    rw [hw]
    exact List.mem_singleton.mpr rfl
  · norm_num

end CryptoDashboard
